import Mathlib

/-!
Verification of the DealLens rate-limiting and response-caching layer.

The definitions below are a shallow embedding of
`apps/api/app/middleware/rate_limit.py` and `apps/api/app/utils/cache.py`.
Timestamps are modelled as `Int` (Python `time.time()` values at integer
granularity suffice for all properties considered), Python `deque`s as
`List Int` (front = index 0, `append` at the back), and Python dicts of
clients as total functions with default `[]` (a `defaultdict(deque)`).
-/

namespace RateLimit

/-- Configuration of `SimpleRateLimiter` (`rate_limit.py`, lines 15-18):
`max_requests` and `window_seconds`. -/
structure SimpleRateLimiter where
  max_requests : Nat
  window_seconds : Int
deriving DecidableEq, Repr

/-- The `while client_requests and client_requests[0] < window_start:
client_requests.popleft()` loop of `is_allowed` (lines 27-28): repeatedly
drop the front element while it is `< window_start`. -/
def trimOld (window_start : Int) : List Int → List Int
  | [] => []
  | t :: ts => if t < window_start then trimOld window_start ts else t :: ts

/-- `SimpleRateLimiter.is_allowed` (lines 20-36), with the client's queue `q`
and the current time `now` made explicit.  Returns the `(allowed, remaining)`
pair together with the client's queue after the call. -/
def is_allowed (cfg : SimpleRateLimiter) (q : List Int) (now : Int) :
    (Bool × Nat) × List Int :=
  let window_start := now - cfg.window_seconds
  let q' := trimOld window_start q
  if q'.length < cfg.max_requests then
    ((true, cfg.max_requests - (q'.length + 1)), q' ++ [now])
  else
    ((false, 0), q')

/-- Run a sequence of `is_allowed` calls (one client), threading the queue;
returns the list of `(allowed, remaining)` results and the final queue. -/
def runCalls (cfg : SimpleRateLimiter) (q : List Int) :
    List Int → List (Bool × Nat) × List Int
  | [] => ([], q)
  | t :: ts =>
    let r := is_allowed cfg q t
    let rest := runCalls cfg r.2 ts
    (r.1 :: rest.1, rest.2)

/-- The call times of the calls that returned `allowed = true` in a run. -/
def allowedTimes (cfg : SimpleRateLimiter) (q : List Int) :
    List Int → List Int
  | [] => []
  | t :: ts =>
    let r := is_allowed cfg q t
    (if r.1.1 then [t] else []) ++ allowedTimes cfg r.2 ts

/-- The `(now, queue after the call)` pairs of a run, one per call. -/
def statesList (cfg : SimpleRateLimiter) (q : List Int) :
    List Int → List (Int × List Int)
  | [] => []
  | t :: ts =>
    let q₂ := (is_allowed cfg q t).2
    (t, q₂) :: statesList cfg q₂ ts

/-- A `SimpleRateLimiter` together with its `clients` dict
(`defaultdict(deque)`, line 18), modelled as a total function defaulting
to the empty queue. -/
structure LimiterClients where
  cfg : SimpleRateLimiter
  clients : String → List Int

/-- One `is_allowed(client_id)` call on a limiter instance at time `now`:
looks up the client's queue, runs the check, and stores the updated queue. -/
def checkClient (L : LimiterClients) (client_id : String) (now : Int) :
    (Bool × Nat) × LimiterClients :=
  let r := is_allowed L.cfg (L.clients client_id) now
  (r.1, { L with clients := fun c => if c = client_id then r.2 else L.clients c })

/-- The `auth_paths` list of `RateLimitMiddleware.is_auth_endpoint`
(line 65). -/
def auth_paths : List String := ["/auth/", "/login", "/register", "/token"]

/-- `RateLimitMiddleware.is_auth_endpoint` (lines 63-66): the path is
auth-sensitive iff some entry of `auth_paths` occurs in it as a substring
(Python `auth_path in path`). -/
def is_auth_endpoint (path : String) : Bool :=
  auth_paths.any (fun auth_path => decide (auth_path.toList <:+: path.toList))

/-- The middleware's two limiter instances (lines 50-51). -/
structure RateLimitMiddleware where
  general_limiter : LimiterClients
  auth_limiter : LimiterClients

/-- The rate-limiting part of `RateLimitMiddleware.dispatch` (lines 68-76):
choose the auth limiter when the path is auth-sensitive, the general limiter
otherwise, and run exactly that limiter's check.  Returns the
`(allowed, remaining)` pair and the middleware state after the call. -/
def dispatch (m : RateLimitMiddleware) (path : String) (client_id : String)
    (now : Int) : (Bool × Nat) × RateLimitMiddleware :=
  if is_auth_endpoint path then
    let r := checkClient m.auth_limiter client_id now
    (r.1, { m with auth_limiter := r.2 })
  else
    let r := checkClient m.general_limiter client_id now
    (r.1, { m with general_limiter := r.2 })

end RateLimit

namespace Cache

/-- The JSON data model: the values `json.dumps` / `json.loads` exchange.
Numbers are modelled as integers (no float appears in any cached payload the
claims concern); object fields are an association list in Python-dict
insertion order. -/
inductive Json where
  | null : Json
  | bool (b : Bool) : Json
  | num (n : Int) : Json
  | str (s : String) : Json
  | arr (xs : List Json) : Json
  | obj (kvs : List (String × Json)) : Json

/-- Decimal digits of `n`, least significant first, with explicit fuel so the
definition is structural (fuel `n + 1` always suffices). -/
def natDigitsAux : Nat → Nat → List Char
  | 0, _ => []
  | fuel + 1, n => if n = 0 then [] else Nat.digitChar (n % 10) :: natDigitsAux fuel (n / 10)

/-- Decimal representation of a natural number (Python `repr` of an `int`). -/
def natChars (n : Nat) : List Char :=
  if n = 0 then ['0'] else (natDigitsAux (n + 1) n).reverse

/-- Decimal representation of an integer. -/
def intChars (n : Int) : List Char :=
  if n < 0 then '-' :: natChars n.natAbs else natChars n.toNat

/-- Four lowercase hex digits, as in Python's `\uXXXX` escapes. -/
def hex4 (n : Nat) : List Char :=
  [Nat.digitChar (n / 4096 % 16), Nat.digitChar (n / 256 % 16),
    Nat.digitChar (n / 16 % 16), Nat.digitChar (n % 16)]

/-- The `\uXXXX` escape of a code point, with a surrogate pair above
`0xFFFF`, as `json.dumps` (with its default `ensure_ascii=True`) emits. -/
def escUnicode (n : Nat) : List Char :=
  if n < 0x10000 then '\\' :: 'u' :: hex4 n
  else
    '\\' :: 'u' :: hex4 (0xD800 + (n - 0x10000) / 0x400) ++
      '\\' :: 'u' :: hex4 (0xDC00 + (n - 0x10000) % 0x400)

/-- Escaping of one character inside a JSON string literal, following
`json.encoder.py_encode_basestring_ascii`: backslash, quote and the
characters outside `0x20`-`0x7e` are escaped, control characters with a
short form where one exists. -/
def escapeChar (c : Char) : List Char :=
  if c = '"' then ['\\', '"']
  else if c = '\\' then ['\\', '\\']
  else if c.toNat = 8 then ['\\', 'b']
  else if c.toNat = 9 then ['\\', 't']
  else if c.toNat = 10 then ['\\', 'n']
  else if c.toNat = 12 then ['\\', 'f']
  else if c.toNat = 13 then ['\\', 'r']
  else if c.toNat < 0x20 ∨ 0x7f ≤ c.toNat then escUnicode c.toNat
  else [c]

def escapeList : List Char → List Char
  | [] => []
  | c :: cs => escapeChar c ++ escapeList cs

/-- A JSON string literal: quote, escaped contents, quote. -/
def strLit (s : String) : List Char :=
  '"' :: escapeList s.toList ++ ['"']

/-- Join pieces with a separator (`", "` between JSON items). -/
def joinSep (sep : List Char) : List (List Char) → List Char
  | [] => []
  | [x] => x
  | x :: y :: rest => x ++ sep ++ joinSep sep (y :: rest)

mutual

/-- `json.dumps` with the default separators `", "` / `": "` and fields in
dict insertion order (`sort_keys=False`). -/
def dumpsJ : Json → List Char
  | .null => "null".toList
  | .bool b => (if b then "true" else "false").toList
  | .num n => intChars n
  | .str s => strLit s
  | .arr xs => '[' :: joinSep [',', ' '] (dumpsList xs) ++ [']']
  | .obj kvs => '\x7b' :: joinSep [',', ' '] (dumpsFields kvs) ++ ['\x7d']

def dumpsList : List Json → List (List Char)
  | [] => []
  | x :: xs => dumpsJ x :: dumpsList xs

def dumpsFields : List (String × Json) → List (List Char)
  | [] => []
  | (k, v) :: kvs => (strLit k ++ ':' :: ' ' :: dumpsJ v) :: dumpsFields kvs

end

/-- Insert a field into a key-sorted field list (keys compared as strings). -/
def insortKey (p : String × Json) : List (String × Json) → List (String × Json)
  | [] => [p]
  | q :: rest => if p.1 ≤ q.1 then p :: q :: rest else q :: insortKey p rest

/-- Sort a field list by key (what `sort_keys=True` does to each object's
items; Python dict keys are distinct, so stability is irrelevant). -/
def sortByKey : List (String × Json) → List (String × Json)
  | [] => []
  | p :: rest => insortKey p (sortByKey rest)

mutual

/-- Recursively sort every object's fields by key: serializing
`sortKeys j` in insertion order is serializing `j` with `sort_keys=True`. -/
def sortKeys : Json → Json
  | .null => .null
  | .bool b => .bool b
  | .num n => .num n
  | .str s => .str s
  | .arr xs => .arr (sortKeysList xs)
  | .obj kvs => .obj (sortByKey (sortKeysFields kvs))

def sortKeysList : List Json → List Json
  | [] => []
  | x :: xs => sortKeys x :: sortKeysList xs

def sortKeysFields : List (String × Json) → List (String × Json)
  | [] => []
  | (k, v) :: kvs => (k, sortKeys v) :: sortKeysFields kvs

end

/-- `json.dumps(d, sort_keys=True)` for an object with fields `d`
(`cache.py` line 184). -/
def dumpsSorted (d : List (String × Json)) : List Char :=
  dumpsJ (sortKeys (.obj d))


/-- Little-endian bytes of a 32-bit word. -/
def le4 (n : Nat) : List Nat :=
  [n % 256, n / 256 % 256, n / 65536 % 256, n / 16777216 % 256]

/-- Little-endian bytes of a 64-bit word (the MD5 length field). -/
def le8 (n : Nat) : List Nat :=
  le4 (n % 4294967296) ++ le4 (n / 4294967296 % 4294967296)

/-- MD5 padding: `0x80`, zeros to 56 mod 64, then the bit length. -/
def md5Pad (msg : List Nat) : List Nat :=
  msg ++ 128 :: List.replicate ((119 - msg.length % 64) % 64) 0 ++
    le8 (8 * msg.length)

/-- The 64 MD5 sine-derived constants (RFC 1321). -/
def md5K : List Nat :=
  [0xd76aa478, 0xe8c7b756, 0x242070db, 0xc1bdceee,
   0xf57c0faf, 0x4787c62a, 0xa8304613, 0xfd469501,
   0x698098d8, 0x8b44f7af, 0xffff5bb1, 0x895cd7be,
   0x6b901122, 0xfd987193, 0xa679438e, 0x49b40821,
   0xf61e2562, 0xc040b340, 0x265e5a51, 0xe9b6c7aa,
   0xd62f105d, 0x02441453, 0xd8a1e681, 0xe7d3fbc8,
   0x21e1cde6, 0xc33707d6, 0xf4d50d87, 0x455a14ed,
   0xa9e3e905, 0xfcefa3f8, 0x676f02d9, 0x8d2a4c8a,
   0xfffa3942, 0x8771f681, 0x6d9d6122, 0xfde5380c,
   0xa4beea44, 0x4bdecfa9, 0xf6bb4b60, 0xbebfbc70,
   0x289b7ec6, 0xeaa127fa, 0xd4ef3085, 0x04881d05,
   0xd9d4d039, 0xe6db99e5, 0x1fa27cf8, 0xc4ac5665,
   0xf4292244, 0x432aff97, 0xab9423a7, 0xfc93a039,
   0x655b59c3, 0x8f0ccc92, 0xffeff47d, 0x85845dd1,
   0x6fa87e4f, 0xfe2ce6e0, 0xa3014314, 0x4e0811a1,
   0xf7537e82, 0xbd3af235, 0x2ad7d2bb, 0xeb86d391]

/-- The per-round left-rotation amounts. -/
def md5S : List Nat :=
  [7, 12, 17, 22, 7, 12, 17, 22, 7, 12, 17, 22, 7, 12, 17, 22,
   5, 9, 14, 20, 5, 9, 14, 20, 5, 9, 14, 20, 5, 9, 14, 20,
   4, 11, 16, 23, 4, 11, 16, 23, 4, 11, 16, 23, 4, 11, 16, 23,
   6, 10, 15, 21, 6, 10, 15, 21, 6, 10, 15, 21, 6, 10, 15, 21]

/-- 32-bit left rotation (inputs kept `< 2^32` throughout). -/
def rotl32 (x c : Nat) : Nat :=
  (x * 2 ^ c + x / 2 ^ (32 - c)) % 4294967296

def md5F (b c d : Nat) : Nat := Nat.lor (Nat.land b c) (Nat.land (4294967295 - b) d)
def md5G (b c d : Nat) : Nat := Nat.lor (Nat.land d b) (Nat.land (4294967295 - d) c)
def md5H (b c d : Nat) : Nat := Nat.xor b (Nat.xor c d)
def md5I (b c d : Nat) : Nat := Nat.xor c (Nat.lor b (4294967295 - d))

/-- One of the 64 MD5 operations; `M` is the current block's word fetch. -/
def md5Step (M : Nat → Nat) (st : Nat × Nat × Nat × Nat) (i : Nat) :
    Nat × Nat × Nat × Nat :=
  let a := st.1
  let b := st.2.1
  let c := st.2.2.1
  let d := st.2.2.2
  let f := if i < 16 then md5F b c d
    else if i < 32 then md5G b c d
    else if i < 48 then md5H b c d
    else md5I b c d
  let g := if i < 16 then i
    else if i < 32 then (5 * i + 1) % 16
    else if i < 48 then (3 * i + 5) % 16
    else (7 * i) % 16
  let tmp := (f + a + md5K.getD i 0 + M g) % 4294967296
  (d, (b + rotl32 tmp (md5S.getD i 0)) % 4294967296, b, c)

/-- Process one 64-byte block. -/
def md5Block (st : Nat × Nat × Nat × Nat) (block : List Nat) :
    Nat × Nat × Nat × Nat :=
  let M : Nat → Nat := fun j =>
    block.getD (4 * j) 0 + 256 * block.getD (4 * j + 1) 0 +
      65536 * block.getD (4 * j + 2) 0 + 16777216 * block.getD (4 * j + 3) 0
  let r := (List.range 64).foldl (md5Step M) st
  ((st.1 + r.1) % 4294967296, (st.2.1 + r.2.1) % 4294967296,
    (st.2.2.1 + r.2.2.1) % 4294967296, (st.2.2.2 + r.2.2.2) % 4294967296)

/-- The 16 digest bytes of the MD5 of a byte sequence. -/
def md5Sum (msg : List Nat) : List Nat :=
  let padded := md5Pad msg
  let st := (List.range (padded.length / 64)).foldl
    (fun st i => md5Block st ((padded.drop (64 * i)).take 64))
    (0x67452301, 0xefcdab89, 0x98badcfe, 0x10325476)
  le4 st.1 ++ le4 st.2.1 ++ le4 st.2.2.1 ++ le4 st.2.2.2

/-- Two lowercase hex digits of a byte. -/
def byteHex (b : Nat) : List Char := [Nat.digitChar (b / 16), Nat.digitChar (b % 16)]

/-- Lowercase hex digest, as `hashlib.md5(...).hexdigest()`. -/
def md5Hex (msg : List Nat) : List Char :=
  (md5Sum msg).foldr (fun b acc => byteHex b ++ acc) []

/-- UTF-8 encoding of one character (`str.encode()`). -/
def utf8Char (c : Char) : List Nat :=
  let n := c.toNat
  if n < 0x80 then [n]
  else if n < 0x800 then [0xC0 + n / 64, 0x80 + n % 64]
  else if n < 0x10000 then
    [0xE0 + n / 4096, 0x80 + n / 64 % 64, 0x80 + n % 64]
  else
    [0xF0 + n / 262144, 0x80 + n / 4096 % 64, 0x80 + n / 64 % 64, 0x80 + n % 64]

def utf8 : List Char → List Nat
  | [] => []
  | c :: cs => utf8Char c ++ utf8 cs

/-- `hash_dict` (`cache.py` lines 181-185): the first 8 hex characters of the
MD5 of `json.dumps(d, sort_keys=True)`. -/
def hash_dict (d : List (String × Json)) : String :=
  String.mk ((md5Hex (utf8 (dumpsSorted d))).take 8)

/-- Python `x is None` on a JSON value. -/
def Json.isNull : Json → Bool
  | .null => true
  | _ => false

/-- Drop the entries whose value is null (what the claim asserts `hash_dict`
does before digesting; the spec's "null values dropped"). -/
def dropNulls (d : List (String × Json)) : List (String × Json) :=
  d.filter (fun kv => ¬ kv.2.isNull)

/-- A Python value passed to `CacheManager.set`: a value of the JSON data
model, or a non-JSON-serializable object whose `str()` rendering is `s`. -/
inductive PyVal where
  | json (j : Json)
  | obj (s : String)

/-- `json.dumps(value, default=str)` (`cache.py` line 95), by the value it
deserializes back to: JSON-model values serialize to themselves; any other
object is coerced through `str()` by the `default=str` argument, so
serialization succeeds for every representable value.  The `Except` codomain
records where a serialization error would surface (inside the `try` of
`set`). -/
def dumps_default_str : PyVal → Except String Json
  | .json j => .ok j
  | .obj s => .ok (.str s)

/-- One backing-store (Redis) entry: key, stored wire value (modelled by the
JSON value it deserializes back to, `json.loads` being the inverse of
`json.dumps` on the wire), and optional absolute expiry time. -/
structure Store where
  entries : List (String × Json × Option Int)

/-- Whether an entry is unexpired at `now` (the store enforces expiry). -/
def entryAlive (now : Int) (e : String × Json × Option Int) : Bool :=
  match e.2.2 with
  | none => true
  | some exp => now < exp

/-- Redis `GET`: the stored value if present and unexpired. -/
def storeGet (st : Store) (now : Int) (k : String) : Option Json :=
  match st.entries.find? (fun e => e.1 == k) with
  | none => none
  | some e => if entryAlive now e then some e.2.1 else none

/-- A store write: replace any entry for `k`; `exp = none` means no expiry
(Redis `SET` without expiration). -/
def storeWrite (st : Store) (k : String) (v : Json) (exp : Option Int) : Store :=
  ⟨(k, v, exp) :: st.entries.filter (fun e => e.1 != k)⟩

/-- Redis `SETEX`, which rejects a non-positive ttl with an error; otherwise
the entry expires `ttl` seconds from now. -/
def storeSetex (st : Store) (now : Int) (k : String) (v : Json) (ttl : Int) :
    Except String Store :=
  if ttl ≤ 0 then .error "invalid expire time"
  else .ok (storeWrite st k v (some (now + ttl)))

/-- Redis `DEL key`: 1 if the key existed unexpired, else 0; the entry is
removed either way. -/
def storeDel (st : Store) (now : Int) (k : String) : Nat × Store :=
  ((if st.entries.any (fun e => e.1 == k && entryAlive now e) then 1 else 0),
    ⟨st.entries.filter (fun e => e.1 != k)⟩)

/-- Redis glob matching (`*` and `?` wildcards). -/
def globMatch : List Char → List Char → Bool
  | [], [] => true
  | [], _ :: _ => false
  | '*' :: ps, [] => globMatch ps []
  | '*' :: ps, c :: s => globMatch ps (c :: s) || globMatch ('*' :: ps) s
  | '?' :: _, [] => false
  | '?' :: ps, _ :: s => globMatch ps s
  | _ :: _, [] => false
  | p :: ps, c :: s => p == c && globMatch ps s
termination_by p s => p.length + s.length

/-- Redis `KEYS pattern`: the unexpired keys matching the pattern. -/
def storeKeys (st : Store) (now : Int) (pat : String) : List String :=
  (st.entries.filter
    (fun e => entryAlive now e && globMatch pat.toList e.1.toList)).map
    (fun e => e.1)

/-- The client the manager holds: `noclient` when the initial connection
failed (`cache.py` lines 16-25, `self.client` is `None`), `failing` when the
client exists but every store operation raises (a store outage), `up st`
when the store is reachable with contents `st`. -/
inductive Backend where
  | noclient
  | failing
  | up (st : Store)

/-- `CacheManager.get` (lines 75-87), returning the Python value of the
call; `Json.null` models Python `None`, the miss sentinel.  No client:
return `None`.  A raised store exception is caught and falls through to
`return None`.  Otherwise `data = self.client.get(key)`; `if data:` is the
truthiness of the serialized string, and `json.loads(data)` recovers the
stored value. -/
def CacheManager.get (b : Backend) (now : Int) (key : String) : Json :=
  match b with
  | .noclient => .null
  | .failing => .null
  | .up st =>
    match storeGet st now key with
    | none => .null
    | some v => if (dumpsJ v).length ≠ 0 then v else .null

/-- `CacheManager.set` (lines 89-102).  No client: `False`.  Inside the
`try`: serialize with `default=str`; `if ttl:` (both `None` and `0` are
falsy) choose `setex` or plain `set`.  Any exception raised inside the `try`
— store failure, or `setex` rejecting the ttl — is caught and yields
`False`. -/
def CacheManager.set (b : Backend) (now : Int) (key : String) (value : PyVal)
    (ttl : Option Int) : Bool × Backend :=
  match b with
  | .noclient => (false, b)
  | .failing => (false, b)
  | .up st =>
    match dumps_default_str value with
    | .error _ => (false, b)
    | .ok data =>
      match ttl with
      | some t =>
        if t ≠ 0 then
          match storeSetex st now key data t with
          | .ok st' => (true, .up st')
          | .error _ => (false, b)
        else (true, .up (storeWrite st key data none))
      | none => (true, .up (storeWrite st key data none))

/-- `CacheManager.delete` (lines 104-113): `bool(self.client.delete(key))`,
`False` with no client or on a raised store exception. -/
def CacheManager.delete (b : Backend) (now : Int) (key : String) :
    Bool × Backend :=
  match b with
  | .noclient => (false, b)
  | .failing => (false, b)
  | .up st =>
    let r := storeDel st now key
    (r.1 != 0, .up r.2)

/-- `CacheManager.delete_pattern` (lines 115-127): `KEYS` then `DEL` of the
matches; `0` with no client, no matches, or on a raised store exception. -/
def CacheManager.delete_pattern (b : Backend) (now : Int) (pattern : String) :
    Nat × Backend :=
  match b with
  | .noclient => (0, b)
  | .failing => (0, b)
  | .up st =>
    let ks := storeKeys st now pattern
    if ks.isEmpty then (0, .up st)
    else
      ((st.entries.filter (fun e => ks.contains e.1 && entryAlive now e)).length,
        .up ⟨st.entries.filter (fun e => !ks.contains e.1)⟩)

/-- The body of the `cached` decorator's `wrapper` (lines 157-175) for one
call: `result` is the value the wrapped function would compute.  Returns the
value handed back to the caller, whether the wrapped function was invoked
(i.e. the cache was treated as missing), and the backend afterwards.
`if cached_result is not None:` returns the hit; otherwise the function runs
and its result is cached. -/
def cachedWrapper (b : Backend) (now : Int) (cache_key : String)
    (result : PyVal) (cache_ttl : Int) : PyVal × Bool × Backend :=
  let cached_result := CacheManager.get b now cache_key
  if cached_result.isNull then
    (result, true, (CacheManager.set b now cache_key result (some cache_ttl)).2)
  else (.json cached_result, false, b)

end Cache

namespace RateLimit

theorem trimOld_eq_dropWhile (ws : Int) (q : List Int) :
    trimOld ws q = q.dropWhile (fun t => decide (t < ws)) := by
  induction q with
  | nil => rfl
  | cons t ts ih =>
    by_cases h : t < ws <;> simp [trimOld, List.dropWhile, h, ih]

/-- C1: `is_allowed` first removes exactly the maximal prefix of timestamps
strictly older than `now - window_seconds`; if the remaining length is
`< max_requests` it appends `now` and returns `(true, max_requests - new
length)`, otherwise it returns `(false, 0)` with no mutation beyond the trim.
With `max_requests = 3`, `window_seconds = 60`, calls at times
`0, 0, 0, 10, 61` return `(true,2), (true,1), (true,0), (false,0), (true,2)`. -/
theorem claim_C1 :
    (∀ (cfg : SimpleRateLimiter) (q : List Int) (now : Int),
      (is_allowed cfg q now).2 =
        q.dropWhile (fun t => decide (t < now - cfg.window_seconds)) ++
          (if (q.dropWhile (fun t => decide (t < now - cfg.window_seconds))).length
              < cfg.max_requests then [now] else []) ∧
      (is_allowed cfg q now).1 =
        (if (q.dropWhile (fun t => decide (t < now - cfg.window_seconds))).length
            < cfg.max_requests then
          (true, cfg.max_requests -
            ((q.dropWhile (fun t => decide (t < now - cfg.window_seconds))).length + 1))
        else (false, 0))) ∧
    runCalls ⟨3, 60⟩ [] [0, 0, 0, 10, 61] =
      ([(true, 2), (true, 1), (true, 0), (false, 0), (true, 2)], [61]) := by
  constructor
  · intro cfg q now
    rw [is_allowed]
    rw [trimOld_eq_dropWhile]
    constructor
    · split <;> simp
    · split <;> simp
  · decide

theorem length_trimOld_le (ws : Int) (q : List Int) :
    (trimOld ws q).length ≤ q.length := by
  induction q with
  | nil => simp [trimOld]
  | cons t ts ih =>
    rw [trimOld]
    split
    · exact Nat.le_succ_of_le ih
    · exact Nat.le_refl _

theorem mem_trimOld {ws x : Int} {q : List Int} (h : x ∈ trimOld ws q) :
    x ∈ q := by
  induction q with
  | nil => simpa [trimOld] using h
  | cons t ts ih =>
    rw [trimOld] at h
    split at h
    · exact List.mem_cons_of_mem _ (ih h)
    · exact h

theorem countP_trimOld_eq (P : Int → Bool) (ws : Int)
    (hP : ∀ x, x < ws → P x = false) (q : List Int) :
    (trimOld ws q).countP P = q.countP P := by
  induction q with
  | nil => rfl
  | cons t ts ih =>
    rw [trimOld]
    split
    · rw [ih, List.countP_cons]
      rename_i hlt
      rw [hP t hlt]
      simp
    · rfl

theorem is_allowed_pos {cfg : SimpleRateLimiter} {q : List Int} {now : Int}
    (h : (trimOld (now - cfg.window_seconds) q).length < cfg.max_requests) :
    is_allowed cfg q now =
      ((true, cfg.max_requests -
          ((trimOld (now - cfg.window_seconds) q).length + 1)),
        trimOld (now - cfg.window_seconds) q ++ [now]) := by
  simp [is_allowed, h]

theorem is_allowed_neg {cfg : SimpleRateLimiter} {q : List Int} {now : Int}
    (h : ¬ (trimOld (now - cfg.window_seconds) q).length < cfg.max_requests) :
    is_allowed cfg q now = ((false, 0), trimOld (now - cfg.window_seconds) q) := by
  simp [is_allowed, h]

theorem allowedTimes_cons_pos {cfg : SimpleRateLimiter} {q : List Int}
    {u : Int} (us : List Int)
    (h : (trimOld (u - cfg.window_seconds) q).length < cfg.max_requests) :
    allowedTimes cfg q (u :: us) =
      u :: allowedTimes cfg (trimOld (u - cfg.window_seconds) q ++ [u]) us := by
  rw [allowedTimes, is_allowed_pos h]
  simp

theorem allowedTimes_cons_neg {cfg : SimpleRateLimiter} {q : List Int}
    {u : Int} (us : List Int)
    (h : ¬ (trimOld (u - cfg.window_seconds) q).length < cfg.max_requests) :
    allowedTimes cfg q (u :: us) =
      allowedTimes cfg (trimOld (u - cfg.window_seconds) q) us := by
  rw [allowedTimes, is_allowed_neg h]
  simp

theorem statesList_cons_pos {cfg : SimpleRateLimiter} {q : List Int}
    {u : Int} (us : List Int)
    (h : (trimOld (u - cfg.window_seconds) q).length < cfg.max_requests) :
    statesList cfg q (u :: us) =
      (u, trimOld (u - cfg.window_seconds) q ++ [u]) ::
        statesList cfg (trimOld (u - cfg.window_seconds) q ++ [u]) us := by
  rw [statesList, is_allowed_pos h]

theorem statesList_cons_neg {cfg : SimpleRateLimiter} {q : List Int}
    {u : Int} (us : List Int)
    (h : ¬ (trimOld (u - cfg.window_seconds) q).length < cfg.max_requests) :
    statesList cfg q (u :: us) =
      (u, trimOld (u - cfg.window_seconds) q) ::
        statesList cfg (trimOld (u - cfg.window_seconds) q) us := by
  rw [statesList, is_allowed_neg h]

theorem mem_allowedTimes (cfg : SimpleRateLimiter) :
    ∀ (ts q : List Int) (x : Int), x ∈ allowedTimes cfg q ts → x ∈ ts := by
  intro ts
  induction ts with
  | nil => intro q x h; simpa [allowedTimes] using h
  | cons u us ih =>
    intro q x h
    rw [allowedTimes] at h
    rcases List.mem_append.1 h with h1 | h2
    · split at h1
      · simp only [List.mem_singleton] at h1
        exact h1 ▸ List.mem_cons_self _ _
      · simp at h1
    · exact List.mem_cons_of_mem _ (ih _ _ h2)

theorem allowedTimes_count_bound (cfg : SimpleRateLimiter) (t : Int) :
    ∀ (ts q : List Int), ts.Sorted (· ≤ ·) →
      q.length ≤ cfg.max_requests →
      (allowedTimes cfg q ts).countP
          (fun x => decide (t - cfg.window_seconds < x ∧ x ≤ t)) +
        q.countP (fun x => decide (t - cfg.window_seconds < x ∧ x ≤ t)) ≤
        cfg.max_requests := by
  intro ts
  set P : Int → Bool := fun x => decide (t - cfg.window_seconds < x ∧ x ≤ t) with hPdef
  induction ts with
  | nil =>
    intro q _ hq
    simpa [allowedTimes] using Nat.le_trans (List.countP_le_length P) hq
  | cons u us ih =>
    intro q hs hq
    have hus : us.Sorted (· ≤ ·) := List.Sorted.of_cons hs
    have hge : ∀ v ∈ us, u ≤ v := (List.pairwise_cons.1 hs).1
    by_cases hut : u ≤ t
    · -- the trim at this call removes no element of the counted window
      have htrim : (trimOld (u - cfg.window_seconds) q).countP P = q.countP P := by
        refine countP_trimOld_eq P _ (fun x hx => ?_) q
        rw [hPdef]
        exact decide_eq_false (by omega)
      by_cases hlen : (trimOld (u - cfg.window_seconds) q).length < cfg.max_requests
      · have hlen2 : (trimOld (u - cfg.window_seconds) q ++ [u]).length ≤
            cfg.max_requests := by
          simpa using hlen
        have ihq := ih (trimOld (u - cfg.window_seconds) q ++ [u]) hus hlen2
        rw [List.countP_append] at ihq
        rw [allowedTimes_cons_pos us hlen, List.countP_cons]
        simp only [List.countP_singleton] at ihq
        omega
      · have hlen2 : (trimOld (u - cfg.window_seconds) q).length ≤
            cfg.max_requests :=
          Nat.le_trans (length_trimOld_le _ _) hq
        have ihq := ih (trimOld (u - cfg.window_seconds) q) hus hlen2
        rw [allowedTimes_cons_neg us hlen]
        omega
    · -- every later call time exceeds t, so nothing in the window is counted
      have hzero : ∀ x ∈ us, P x = false := by
        intro x hx
        have hxu : u ≤ x := hge x hx
        rw [hPdef]
        exact decide_eq_false (by omega)
      have hPu : P u = false := by
        rw [hPdef]
        exact decide_eq_false (by omega)
      have hqle : q.countP P ≤ cfg.max_requests :=
        Nat.le_trans (List.countP_le_length P) hq
      have h0 : ∀ q₂ : List Int, (allowedTimes cfg q₂ us).countP P = 0 := by
        intro q₂
        refine List.countP_eq_zero.2 (fun a ha => ?_)
        have := hzero a (mem_allowedTimes cfg us q₂ a ha)
        simp [this]
      by_cases hlen : (trimOld (u - cfg.window_seconds) q).length < cfg.max_requests
      · rw [allowedTimes_cons_pos us hlen, List.countP_cons, h0, hPu]
        simp only [Bool.false_eq_true, if_false]
        omega
      · rw [allowedTimes_cons_neg us hlen, h0]
        omega

/-- C2: for one client starting fresh, with `max_requests = N` and
`window_seconds = W`, and any non-decreasing sequence of call times, for
every time `t` at most `N` of the calls whose time lies in `(t - W, t]`
return `allowed = true`. -/
theorem claim_C2 (cfg : SimpleRateLimiter) (ts : List Int)
    (hts : ts.Sorted (· ≤ ·)) (t : Int) :
    (allowedTimes cfg [] ts).countP
        (fun x => decide (t - cfg.window_seconds < x ∧ x ≤ t)) ≤
      cfg.max_requests := by
  have h := allowedTimes_count_bound cfg t ts [] hts (by simp)
  simpa using h

/-- C2 witness: the limiter `(3, 60)` on calls at `0, 0, 0, 10, 61` admits at
most three allowed calls inside the window `(10 - 60, 10]`. -/
theorem claim_C2_witness :
    ([0, 0, 0, 10, 61] : List Int).Sorted (· ≤ ·) ∧
    (allowedTimes ⟨3, 60⟩ [] [0, 0, 0, 10, 61]).countP
        (fun x => decide ((10 : Int) - (⟨3, 60⟩ : SimpleRateLimiter).window_seconds < x ∧
          x ≤ 10)) ≤ (⟨3, 60⟩ : SimpleRateLimiter).max_requests :=
  ⟨by decide, claim_C2 ⟨3, 60⟩ [0, 0, 0, 10, 61] (by decide) 10⟩

theorem pairwise_trimOld {ws : Int} {q : List Int}
    (h : q.Pairwise (· ≤ ·)) : (trimOld ws q).Pairwise (· ≤ ·) := by
  induction q with
  | nil => simpa [trimOld] using h
  | cons t ts ih =>
    rw [trimOld]
    split
    · exact ih (List.pairwise_cons.1 h).2
    · exact h

theorem ge_of_mem_trimOld {ws x : Int} {q : List Int}
    (hq : q.Pairwise (· ≤ ·)) (h : x ∈ trimOld ws q) : ws ≤ x := by
  induction q with
  | nil => simp [trimOld] at h
  | cons t ts ih =>
    rw [trimOld] at h
    split at h
    · exact ih (List.pairwise_cons.1 hq).2 h
    · rename_i hnlt
      rcases List.mem_cons.1 h with rfl | hmem
      · omega
      · have := (List.pairwise_cons.1 hq).1 x hmem
        omega

theorem statesList_invariant (cfg : SimpleRateLimiter)
    (hW : 0 ≤ cfg.window_seconds) :
    ∀ (ts q : List Int), ts.Sorted (· ≤ ·) → q.Pairwise (· ≤ ·) →
      (∀ x ∈ q, ∀ u ∈ ts, x ≤ u) → q.length ≤ cfg.max_requests →
      ∀ p ∈ statesList cfg q ts,
        (∀ x ∈ p.2, p.1 - cfg.window_seconds ≤ x) ∧
          p.2.length ≤ cfg.max_requests := by
  intro ts
  induction ts with
  | nil => intro q _ _ _ _ p hp; simp [statesList] at hp
  | cons u us ih =>
    intro q hs hqsort hle hq p hp
    have hus : us.Sorted (· ≤ ·) := List.Sorted.of_cons hs
    have hule : ∀ v ∈ us, u ≤ v := (List.pairwise_cons.1 hs).1
    have hq'sort : (trimOld (u - cfg.window_seconds) q).Pairwise (· ≤ ·) :=
      pairwise_trimOld hqsort
    by_cases hlen : (trimOld (u - cfg.window_seconds) q).length < cfg.max_requests
    · -- allowed call: the queue becomes the trimmed queue with u appended
      have hstate : (∀ x ∈ trimOld (u - cfg.window_seconds) q ++ [u],
          u - cfg.window_seconds ≤ x) ∧
          (trimOld (u - cfg.window_seconds) q ++ [u]).length ≤
            cfg.max_requests := by
        constructor
        · intro x hx
          rcases List.mem_append.1 hx with hx' | hx'
          · exact ge_of_mem_trimOld hqsort hx'
          · simp only [List.mem_singleton] at hx'
            omega
        · simpa using hlen
      have hstate_sort : (trimOld (u - cfg.window_seconds) q ++ [u]).Pairwise
          (· ≤ ·) := by
        refine List.pairwise_append.2 ⟨hq'sort, List.pairwise_singleton _ _, ?_⟩
        intro x hx y hy
        simp only [List.mem_singleton] at hy
        rw [hy]
        exact hle x (mem_trimOld hx) u (List.mem_cons_self _ _)
      have hstate_le : ∀ x ∈ trimOld (u - cfg.window_seconds) q ++ [u],
          ∀ v ∈ us, x ≤ v := by
        intro x hx v hv
        rcases List.mem_append.1 hx with hx' | hx'
        · exact hle x (mem_trimOld hx') v (List.mem_cons_of_mem _ hv)
        · simp only [List.mem_singleton] at hx'
          subst hx'
          exact hule v hv
      rw [statesList_cons_pos us hlen] at hp
      rcases List.mem_cons.1 hp with rfl | hp'
      · exact hstate
      · exact ih _ hus hstate_sort hstate_le hstate.2 p hp'
    · -- denied call: the queue is only trimmed
      have hstate : (∀ x ∈ trimOld (u - cfg.window_seconds) q,
          u - cfg.window_seconds ≤ x) ∧
          (trimOld (u - cfg.window_seconds) q).length ≤ cfg.max_requests :=
        ⟨fun x hx => ge_of_mem_trimOld hqsort hx,
          Nat.le_trans (length_trimOld_le _ _) hq⟩
      have hstate_le : ∀ x ∈ trimOld (u - cfg.window_seconds) q,
          ∀ v ∈ us, x ≤ v := fun x hx v hv =>
        hle x (mem_trimOld hx) v (List.mem_cons_of_mem _ hv)
      rw [statesList_cons_neg us hlen] at hp
      rcases List.mem_cons.1 hp with rfl | hp'
      · exact hstate
      · exact ih _ hus hq'sort hstate_le hstate.2 p hp'

/-- C8: starting from a fresh client and running any non-decreasing sequence
of `check` calls with a non-negative window, after every call the client's
queue contains no timestamp strictly older than `now - window_seconds` and
its length is at most `max_requests`. -/
theorem claim_C8 (cfg : SimpleRateLimiter) (hW : 0 ≤ cfg.window_seconds)
    (ts : List Int) (hts : ts.Sorted (· ≤ ·)) :
    ∀ p ∈ statesList cfg [] ts,
      (∀ x ∈ p.2, p.1 - cfg.window_seconds ≤ x) ∧
        p.2.length ≤ cfg.max_requests :=
  statesList_invariant cfg hW ts [] hts (by simp) (by simp) (by simp)

/-- C8 witness: the invariant instantiated at the limiter `(3, 60)` and the
call sequence `0, 0, 0, 10, 61`. -/
theorem claim_C8_witness :
    (0 : Int) ≤ (⟨3, 60⟩ : SimpleRateLimiter).window_seconds ∧
    ([0, 0, 0, 10, 61] : List Int).Sorted (· ≤ ·) ∧
    ∀ p ∈ statesList ⟨3, 60⟩ [] [0, 0, 0, 10, 61],
      (∀ x ∈ p.2, p.1 - (⟨3, 60⟩ : SimpleRateLimiter).window_seconds ≤ x) ∧
        p.2.length ≤ (⟨3, 60⟩ : SimpleRateLimiter).max_requests :=
  ⟨by decide, by decide,
    claim_C8 ⟨3, 60⟩ (by decide) [0, 0, 0, 10, 61] (by decide)⟩


/-- C9: a path is classified auth-sensitive exactly when it contains one of
the substrings of `auth_paths` (`"/auth/"`, `"/login"`, `"/register"`,
`"/token"`); an auth-sensitive request is checked against the auth limiter
and only that limiter (the general limiter is untouched and its state is
irrelevant to the result), and every other request is checked against the
general limiter only. -/
theorem claim_C9 (path : String) (m : RateLimitMiddleware)
    (client_id : String) (now : Int) :
    (is_auth_endpoint path = true ↔
      ∃ p ∈ auth_paths, p.toList <:+: path.toList) ∧
    (dispatch m path client_id now).1 =
      (if is_auth_endpoint path then (checkClient m.auth_limiter client_id now).1
        else (checkClient m.general_limiter client_id now).1) ∧
    (dispatch m path client_id now).2.auth_limiter =
      (if is_auth_endpoint path then (checkClient m.auth_limiter client_id now).2
        else m.auth_limiter) ∧
    (dispatch m path client_id now).2.general_limiter =
      (if is_auth_endpoint path then m.general_limiter
        else (checkClient m.general_limiter client_id now).2) := by
  refine ⟨?_, ?_, ?_, ?_⟩
  · simp [is_auth_endpoint, List.any_eq_true]
  · by_cases h : is_auth_endpoint path = true <;> simp [dispatch, h]
  · by_cases h : is_auth_endpoint path = true <;> simp [dispatch, h]
  · by_cases h : is_auth_endpoint path = true <;> simp [dispatch, h]

end RateLimit

namespace Cache

theorem insortKey_perm (p : String × Json) (l : List (String × Json)) :
    List.Perm (insortKey p l) (p :: l) := by
  induction l with
  | nil => exact List.Perm.refl _
  | cons q rest ih =>
    rw [insortKey]
    split
    · exact List.Perm.refl _
    · exact (List.Perm.cons q ih).trans (List.Perm.swap p q rest)

theorem sortByKey_perm (l : List (String × Json)) : List.Perm (sortByKey l) l := by
  induction l with
  | nil => exact List.Perm.refl _
  | cons p rest ih =>
    rw [sortByKey]
    exact (insortKey_perm p _).trans (List.Perm.cons p ih)

theorem insortKey_pairwise {p : String × Json} {l : List (String × Json)}
    (hl : l.Pairwise (fun a b => a.1 ≤ b.1)) :
    (insortKey p l).Pairwise (fun a b => a.1 ≤ b.1) := by
  induction l with
  | nil => exact List.pairwise_singleton _ _
  | cons q rest ih =>
    rw [insortKey]
    split
    · rename_i hpq
      refine List.pairwise_cons.2 ⟨?_, hl⟩
      intro x hx
      rcases List.mem_cons.1 hx with rfl | hx'
      · exact hpq
      · exact le_trans hpq ((List.pairwise_cons.1 hl).1 x hx')
    · rename_i hpq
      refine List.pairwise_cons.2 ⟨?_, ih (List.pairwise_cons.1 hl).2⟩
      intro x hx
      have hx2 : x ∈ p :: rest := (insortKey_perm p rest).mem_iff.1 hx
      rcases List.mem_cons.1 hx2 with rfl | hx'
      · exact le_of_not_le hpq
      · exact (List.pairwise_cons.1 hl).1 x hx'

theorem sortByKey_pairwise (l : List (String × Json)) :
    (sortByKey l).Pairwise (fun a b => a.1 ≤ b.1) := by
  induction l with
  | nil => exact List.Pairwise.nil
  | cons p rest ih =>
    rw [sortByKey]
    exact insortKey_pairwise ih

/-- With distinct keys, a key-sorted arrangement of a field list is unique:
two permuted field lists sort to the same list. -/
theorem sortByKey_eq_of_perm {l1 l2 : List (String × Json)}
    (h : List.Perm l1 l2) (hnodup : (l1.map Prod.fst).Nodup) :
    sortByKey l1 = sortByKey l2 := by
  haveI : IsAntisymm (String × Json) (fun a b => a.1 < b.1) :=
    ⟨fun a b h1 h2 => absurd (lt_trans h1 h2) (lt_irrefl _)⟩
  have hperm : List.Perm (sortByKey l1) (sortByKey l2) :=
    (sortByKey_perm l1).trans (h.trans (sortByKey_perm l2).symm)
  have hstrict : ∀ m : List (String × Json), (m.map Prod.fst).Nodup →
      m.Pairwise (fun a b => a.1 ≤ b.1) →
      m.Pairwise (fun a b => a.1 < b.1) := by
    intro m hnd hle
    have hne : m.Pairwise (fun a b => a.1 ≠ b.1) := List.pairwise_map.1 hnd
    exact (hle.and hne).imp (fun hab => lt_of_le_of_ne hab.1 hab.2)
  have hnd1 : ((sortByKey l1).map Prod.fst).Nodup :=
    (((sortByKey_perm l1).map Prod.fst).nodup_iff).2 hnodup
  have hnd2 : ((sortByKey l2).map Prod.fst).Nodup :=
    (((sortByKey_perm l2).map Prod.fst).nodup_iff).2
      ((h.map Prod.fst).nodup_iff.1 hnodup)
  exact List.eq_of_perm_of_sorted hperm
    (hstrict _ hnd1 (sortByKey_pairwise l1))
    (hstrict _ hnd2 (sortByKey_pairwise l2))

theorem sortKeysFields_eq_map (l : List (String × Json)) :
    sortKeysFields l = l.map (fun kv => (kv.1, sortKeys kv.2)) := by
  induction l with
  | nil => rw [sortKeysFields]; rfl
  | cons kv rest ih =>
    obtain ⟨k, v⟩ := kv
    rw [sortKeysFields, ih]
    rfl

theorem natChars_ne_nil (n : Nat) : natChars n ≠ [] := by
  rw [natChars]
  split
  · simp
  · rename_i hn
    rw [natDigitsAux]
    simp [hn]

theorem intChars_ne_nil (n : Int) : intChars n ≠ [] := by
  rw [intChars]
  split
  · simp
  · exact natChars_ne_nil _

/-- No JSON value serializes to the empty string, so the `if data:`
truthiness test in `get` never mistakes a present value for a miss. -/
theorem dumpsJ_ne_nil (v : Json) : dumpsJ v ≠ [] := by
  cases v with
  | null => rw [dumpsJ]; decide
  | bool b => cases b <;> (rw [dumpsJ]; decide)
  | num n => rw [dumpsJ]; exact intChars_ne_nil n
  | str s => rw [dumpsJ, strLit]; simp
  | arr xs => rw [dumpsJ]; simp
  | obj kvs => rw [dumpsJ]; simp

theorem dumpsJ_length_ne_zero (v : Json) : (dumpsJ v).length ≠ 0 := by
  have := dumpsJ_ne_nil v
  cases h : dumpsJ v with
  | nil => exact absurd h this
  | cons c cs => simp [h]

/-- Shared round-trip lemma: with the store up and a positive ttl, `set`
succeeds and an immediate `get` returns the stored JSON value. -/
theorem set_then_get (st : Store) (now : Int) (k : String) (v : Json)
    (ttl : Int) (h : 0 < ttl) :
    (CacheManager.set (.up st) now k (.json v) (some ttl)).1 = true ∧
    CacheManager.get
      (CacheManager.set (.up st) now k (.json v) (some ttl)).2 now k = v := by
  have h1 : ttl ≠ 0 := by omega
  have h2 : ¬ ttl ≤ 0 := by omega
  have h3 : now < now + ttl := by omega
  have h4 := dumpsJ_length_ne_zero v
  constructor
  · simp [CacheManager.set, dumps_default_str, storeSetex, h1, h2]
  · simp [CacheManager.set, CacheManager.get, dumps_default_str, storeSetex,
      storeWrite, storeGet, entryAlive, List.find?, h1, h2, h3, h4]

end Cache

/-- C3 (amended): `hash_dict` is order-canonicalizing — two field lists that
are permutations of each other (with distinct keys, as Python dict keys are)
produce the identical 8-character key — but null-valued entries are NOT
dropped by `hash_dict` (see the counterexample theorem); the callers drop
them before hashing. -/
theorem claim_C3 (d1 d2 : List (Prod String Cache.Json))
    (hperm : List.Perm d1 d2) (hnodup : (d1.map Prod.fst).Nodup) :
    Cache.hash_dict d1 = Cache.hash_dict d2 := by
  have hmap : List.Perm (Cache.sortKeysFields d1) (Cache.sortKeysFields d2) := by
    rw [Cache.sortKeysFields_eq_map, Cache.sortKeysFields_eq_map]
    exact hperm.map _
  have hkeys : ((Cache.sortKeysFields d1).map Prod.fst).Nodup := by
    rw [Cache.sortKeysFields_eq_map, List.map_map]
    exact hnodup
  have hsort : Cache.sortByKey (Cache.sortKeysFields d1) =
      Cache.sortByKey (Cache.sortKeysFields d2) :=
    Cache.sortByKey_eq_of_perm hmap hkeys
  unfold Cache.hash_dict Cache.dumpsSorted
  rw [Cache.sortKeys, Cache.sortKeys, hsort]

/-- C3 witness: the two dicts of the claim's example,
`\x7b"sector": "Tech", "page": 1\x7d` and `\x7b"page": 1, "sector": "Tech"\x7d`,
hash identically. -/
theorem claim_C3_witness :
    List.Perm [("sector", Cache.Json.str "Tech"), ("page", Cache.Json.num 1)]
      [("page", Cache.Json.num 1), ("sector", Cache.Json.str "Tech")] ∧
    ([("sector", Cache.Json.str "Tech"),
        ("page", Cache.Json.num 1)].map Prod.fst).Nodup ∧
    Cache.hash_dict [("sector", Cache.Json.str "Tech"), ("page", Cache.Json.num 1)] =
      Cache.hash_dict [("page", Cache.Json.num 1), ("sector", Cache.Json.str "Tech")] :=
  ⟨List.Perm.swap _ _ _, by decide,
    claim_C3 _ _ (List.Perm.swap _ _ _) (by decide)⟩

set_option maxRecDepth 10000 in
/-- C3 counterexample: dropping a null-valued entry changes the hash.
`\x7b"page": 1\x7d` and `\x7b"page": 1, "sector": null\x7d` differ only by a
null-valued entry, yet `hash_dict` gives `7ae03f60` for the first and
`09bd79c4` for the second, so the claim as stated is false. -/
theorem claim_C3_counterexample :
    Cache.dropNulls [("page", Cache.Json.num 1), ("sector", Cache.Json.null)] =
      [("page", Cache.Json.num 1)] ∧
    Cache.hash_dict [("page", Cache.Json.num 1), ("sector", Cache.Json.null)] ≠
      Cache.hash_dict [("page", Cache.Json.num 1)] := by
  constructor
  · rfl
  · have h1 : Cache.dumpsSorted
        [("page", Cache.Json.num 1), ("sector", Cache.Json.null)] =
        "\x7b\"page\": 1, \"sector\": null\x7d".toList := by
      simp [Cache.dumpsSorted, Cache.dumpsJ, Cache.dumpsFields, Cache.sortKeys,
        Cache.sortKeysFields, Cache.sortByKey, Cache.insortKey, Cache.joinSep,
        Cache.strLit, Cache.escapeList, Cache.escapeChar, Cache.intChars,
        Cache.natChars, Cache.natDigitsAux, String.toList]
      decide
    have h2 : Cache.dumpsSorted [("page", Cache.Json.num 1)] =
        "\x7b\"page\": 1\x7d".toList := by
      simp [Cache.dumpsSorted, Cache.dumpsJ, Cache.dumpsFields, Cache.sortKeys,
        Cache.sortKeysFields, Cache.sortByKey, Cache.insortKey, Cache.joinSep,
        Cache.strLit, Cache.escapeList, Cache.escapeChar, Cache.intChars,
        Cache.natChars, Cache.natDigitsAux, String.toList]
      decide
    unfold Cache.hash_dict
    rw [h1, h2]
    decide

/-- C4: cache round-trip — with the backing store available, for every key,
every value of the JSON data model and every positive ttl, `set` succeeds
and an immediate `get` returns a value equal to the one stored. -/
theorem claim_C4 (st : Cache.Store) (now : Int) (k : String) (v : Cache.Json)
    (ttl : Int) (h : 0 < ttl) :
    (Cache.CacheManager.set (.up st) now k (.json v) (some ttl)).1 = true ∧
    Cache.CacheManager.get
      (Cache.CacheManager.set (.up st) now k (.json v) (some ttl)).2 now k = v :=
  Cache.set_then_get st now k v ttl h

/-- C4 witness: the round-trip at a concrete key, payload and ttl. -/
theorem claim_C4_witness :
    (0 : Int) < 300 ∧
    (Cache.CacheManager.set (.up ⟨[]⟩) 0 "company:detail:AAPL"
        (.json (.obj [("ticker", Cache.Json.str "AAPL")])) (some 300)).1 = true ∧
    Cache.CacheManager.get
      (Cache.CacheManager.set (.up ⟨[]⟩) 0 "company:detail:AAPL"
        (.json (.obj [("ticker", Cache.Json.str "AAPL")])) (some 300)).2 0
      "company:detail:AAPL" = .obj [("ticker", Cache.Json.str "AAPL")] :=
  ⟨by decide, (claim_C4 ⟨[]⟩ 0 _ _ 300 (by decide)).1,
    (claim_C4 ⟨[]⟩ 0 _ _ 300 (by decide)).2⟩

/-- C5 (amended): for every POSITIVE ttl, a successful `set` stores the value
with expiry `now + ttl` enforced by the store, and any `get` at or after
that time (with no intervening write) returns absent.  For `ttl = 0` the
code stores the value with NO expiration (see the counterexample). -/
theorem claim_C5 (st : Cache.Store) (now : Int) (k : String) (v : Cache.Json)
    (ttl t : Int) (h : 0 < ttl) (ht : now + ttl ≤ t) :
    (Cache.CacheManager.set (.up st) now k (.json v) (some ttl)).1 = true ∧
    Cache.CacheManager.get
      (Cache.CacheManager.set (.up st) now k (.json v) (some ttl)).2 t k =
      Cache.Json.null := by
  have h1 : ttl ≠ 0 := by omega
  have h2 : ¬ ttl ≤ 0 := by omega
  have h3 : ¬ t < now + ttl := by omega
  constructor
  · simp [Cache.CacheManager.set, Cache.dumps_default_str, Cache.storeSetex,
      h1, h2]
  · simp [Cache.CacheManager.set, Cache.CacheManager.get,
      Cache.dumps_default_str, Cache.storeSetex, Cache.storeWrite,
      Cache.storeGet, Cache.entryAlive, List.find?, h1, h2, h3]

/-- C5 witness: a value stored at time 0 with ttl 300 is absent at time 301. -/
theorem claim_C5_witness :
    (0 : Int) < 300 ∧ (0 : Int) + 300 ≤ 301 ∧
    (Cache.CacheManager.set (.up ⟨[]⟩) 0 "company:detail:AAPL"
        (.json (.str "data")) (some 300)).1 = true ∧
    Cache.CacheManager.get
      (Cache.CacheManager.set (.up ⟨[]⟩) 0 "company:detail:AAPL"
        (.json (.str "data")) (some 300)).2 301 "company:detail:AAPL" =
      Cache.Json.null :=
  ⟨by decide, by decide,
    (claim_C5 ⟨[]⟩ 0 _ _ 300 301 (by decide) (by decide)).1,
    (claim_C5 ⟨[]⟩ 0 _ _ 300 301 (by decide) (by decide)).2⟩

/-- C5 counterexample: with `ttl_seconds = 0`, `if ttl:` is falsy, so the
code stores the value WITHOUT expiration (plain `SET`); `set` succeeds, yet a
`get` 1000 seconds later still returns the value, not absent — contradicting
the claim's "for every ttl_seconds". -/
theorem claim_C5_counterexample :
    (Cache.CacheManager.set (.up ⟨[]⟩) 0 "k" (.json (.str "v")) (some 0)).1 =
      true ∧
    Cache.CacheManager.get
      (Cache.CacheManager.set (.up ⟨[]⟩) 0 "k" (.json (.str "v")) (some 0)).2
      1000 "k" = Cache.Json.str "v" := by
  have h4 := Cache.dumpsJ_length_ne_zero (Cache.Json.str "v")
  constructor
  · simp [Cache.CacheManager.set, Cache.dumps_default_str, Cache.storeWrite]
  · simp [Cache.CacheManager.set, Cache.CacheManager.get,
      Cache.dumps_default_str, Cache.storeWrite, Cache.storeGet,
      Cache.entryAlive, List.find?, h4]

/-- C6 (amended): serialization failures do not propagate out of `set`.
A non-JSON-serializable payload is coerced by `default=str` to its `str()`
form: `set` returns true (no exception) and a later `get` returns that
string, not the original object; and any exception that is raised inside
`set` (e.g. a store failure) is caught and converted to the return value
`false` — the same absorption applied to transient store failures. -/
theorem claim_C6 (st : Cache.Store) (now : Int) (k s : String)
    (ttl : Int) (v : Cache.PyVal) (h : 0 < ttl) :
    (Cache.CacheManager.set (.up st) now k (.obj s) (some ttl)).1 = true ∧
    Cache.CacheManager.get
      (Cache.CacheManager.set (.up st) now k (.obj s) (some ttl)).2 now k =
      Cache.Json.str s ∧
    Cache.CacheManager.set .failing now k v (some ttl) = (false, .failing) := by
  have h1 : ttl ≠ 0 := by omega
  have h2 : ¬ ttl ≤ 0 := by omega
  have h3 : now < now + ttl := by omega
  have h4 := Cache.dumpsJ_length_ne_zero (Cache.Json.str s)
  refine ⟨?_, ?_, rfl⟩
  · simp [Cache.CacheManager.set, Cache.dumps_default_str, Cache.storeSetex,
      h1, h2]
  · simp [Cache.CacheManager.set, Cache.CacheManager.get,
      Cache.dumps_default_str, Cache.storeSetex, Cache.storeWrite,
      Cache.storeGet, Cache.entryAlive, List.find?, h1, h2, h3, h4]

/-- C6 witness: the amended behaviour at a concrete non-serializable
payload. -/
theorem claim_C6_witness :
    (0 : Int) < 300 ∧
    (Cache.CacheManager.set (.up ⟨[]⟩) 0 "k" (.obj "<SomeObject>")
        (some 300)).1 = true ∧
    Cache.CacheManager.get
      (Cache.CacheManager.set (.up ⟨[]⟩) 0 "k" (.obj "<SomeObject>")
        (some 300)).2 0 "k" = Cache.Json.str "<SomeObject>" ∧
    Cache.CacheManager.set .failing 0 "k" (.obj "<SomeObject>") (some 300) =
      (false, .failing) :=
  ⟨by decide,
    (claim_C6 ⟨[]⟩ 0 "k" "<SomeObject>" 300 (.obj "<SomeObject>")
      (by decide)).1,
    (claim_C6 ⟨[]⟩ 0 "k" "<SomeObject>" 300 (.obj "<SomeObject>")
      (by decide)).2.1,
    (claim_C6 ⟨[]⟩ 0 "k" "<SomeObject>" 300 (.obj "<SomeObject>")
      (by decide)).2.2⟩

/-- C6 counterexample: calling `set` with a non-JSON-serializable payload
does NOT let a serialization failure propagate as an exception — with
`default=str` the payload is coerced and the call returns `true`, storing
the `str()` form. -/
theorem claim_C6_counterexample :
    (Cache.CacheManager.set (.up ⟨[]⟩) 0 "k" (.obj "<SomeObject>")
        (some 300)).1 = true ∧
    Cache.CacheManager.get
      (Cache.CacheManager.set (.up ⟨[]⟩) 0 "k" (.obj "<SomeObject>")
        (some 300)).2 0 "k" = Cache.Json.str "<SomeObject>" := by
  have h4 := Cache.dumpsJ_length_ne_zero (Cache.Json.str "<SomeObject>")
  constructor
  · simp [Cache.CacheManager.set, Cache.dumps_default_str, Cache.storeSetex]
  · simp [Cache.CacheManager.set, Cache.CacheManager.get,
      Cache.dumps_default_str, Cache.storeSetex, Cache.storeWrite,
      Cache.storeGet, Cache.entryAlive, List.find?, h4]

/-- C7: graceful degradation — with no client, or with every store operation
raising, `get` returns the absent sentinel, `set` returns false, `delete`
returns false and `delete_pattern` returns 0; each operation is a total
function (the exception is absorbed at the component boundary, never
escaping). -/
theorem claim_C7 (now : Int) (k : String) (v : Cache.PyVal)
    (ttl : Option Int) (pat : String) :
    Cache.CacheManager.get .noclient now k = Cache.Json.null ∧
    Cache.CacheManager.get .failing now k = Cache.Json.null ∧
    Cache.CacheManager.set .noclient now k v ttl = (false, .noclient) ∧
    Cache.CacheManager.set .failing now k v ttl = (false, .failing) ∧
    Cache.CacheManager.delete .noclient now k = (false, .noclient) ∧
    Cache.CacheManager.delete .failing now k = (false, .failing) ∧
    Cache.CacheManager.delete_pattern .noclient now pat = (0, .noclient) ∧
    Cache.CacheManager.delete_pattern .failing now pat = (0, .failing) :=
  ⟨rfl, rfl, rfl, rfl, rfl, rfl, rfl, rfl⟩

/-- C10: a stored `None` is indistinguishable from a miss — after a
successful `set` of `None`, `get` returns `None`, the very sentinel returned
on a miss (the same value `get` yields on an empty store), and the `cached`
decorator's wrapper therefore treats the entry as a miss and invokes the
wrapped function again. -/
theorem claim_C10 (st : Cache.Store) (now : Int) (k : String) (ttl : Int)
    (r : Cache.PyVal) (ttl2 : Int) (h : 0 < ttl) :
    (Cache.CacheManager.set (.up st) now k (.json .null) (some ttl)).1 = true ∧
    Cache.CacheManager.get
      (Cache.CacheManager.set (.up st) now k (.json .null) (some ttl)).2 now k =
      Cache.Json.null ∧
    Cache.CacheManager.get
      (Cache.CacheManager.set (.up st) now k (.json .null) (some ttl)).2 now k =
      Cache.CacheManager.get (.up ⟨[]⟩) now k ∧
    (Cache.cachedWrapper
      (Cache.CacheManager.set (.up st) now k (.json .null) (some ttl)).2 now k
      r ttl2).2.1 = true := by
  have hset := Cache.set_then_get st now k .null ttl h
  have hnull : Cache.CacheManager.get
      (Cache.CacheManager.set (.up st) now k (.json .null) (some ttl)).2 now k =
      Cache.Json.null := hset.2
  refine ⟨hset.1, hnull, ?_, ?_⟩
  · rw [hnull]
    rfl
  · rw [Cache.cachedWrapper]
    simp [hnull, Cache.Json.isNull]

/-- C10 witness: the stored-`None` behaviour at a concrete key and ttl. -/
theorem claim_C10_witness :
    (0 : Int) < 300 ∧
    (Cache.cachedWrapper
      (Cache.CacheManager.set (.up ⟨[]⟩) 0 "company:news:AAPL" (.json .null)
        (some 300)).2 0 "company:news:AAPL" (.json (.str "recomputed"))
      120).2.1 = true :=
  ⟨by decide,
    (claim_C10 ⟨[]⟩ 0 "company:news:AAPL" 300 (.json (.str "recomputed")) 120
      (by decide)).2.2.2⟩
